import Mathlib

/-!
Verification development for the personal-brain ingestion-and-retrieval pipeline.

This file gives a shallow embedding of the core operations of the repository:
the vector store (`src/db/vector_store.py`), the LLM client
(`src/llm/ollama_client.py`) and the orchestrator (`src/brain_processor.py`),
together with theorems settling the specification claims about them.

External collaborators (the ChromaDB collections, the Ollama HTTP endpoint,
the filesystem used for the export/stats artifacts) are modelled as explicit
oracle parameters: a `CallRes` value records either the value the collaborator
returned or the message of the exception it raised, since every call site in
the source is wrapped in a `try/except` that turns an exception into a counted
or logged error.  Wall-clock timestamps are not modelled; the `Stats` record
keeps only the counters and status fields the claims are about.
-/

/-- Outcome of a call into a collaborator: the returned value, or the message
of the exception the call raised. -/
inductive CallRes (α : Type) where
  | ok (val : α)
  | exn (msg : String)
deriving DecidableEq, Repr

/-! ### Vector store: data model (`src/db/vector_store.py`) -/

/-- Metadata stored with an indexed entry, as built by `add_note` /
`add_notes_batch`.  `journal_date` is an `Option` because the regular-note
branch of `add_notes_batch` omits the key entirely, while `add_note` always
stores it (possibly as the empty string). -/
structure NoteMeta where
  title : String
  path : String
  is_journal : Bool
  tags : String
  journal_date : Option String
  last_modified : String
deriving DecidableEq, Repr

/-- One entry of a ChromaDB collection: document text stored under an id. -/
structure Entry where
  id : String
  document : String
  metadata : NoteMeta
deriving DecidableEq, Repr

/-- The two collections of the store (`notes` and `journals`). -/
structure Store where
  notes : List Entry
  journals : List Entry
deriving DecidableEq, Repr

/-- Input of `add_note` / `add_notes_batch`: the parsed note dict, with the
fields those functions read (each read with a default, as `dict.get` does). -/
structure NoteData where
  title : String := ""
  path : String := ""
  clean_content : String := ""
  is_journal : Bool := false
  tags : List String := []
  journal_date : String := ""
  last_modified : String := ""
deriving DecidableEq, Repr

/-- Models `path.replace('\\', '_').replace('/', '_')`: both replacements are
single-character, so together they are a character-wise map. -/
def sanitizeId (path : String) : String :=
  String.mk (path.toList.map fun c => if c = '\\' ∨ c = '/' then '_' else c)

/-- ChromaDB `upsert` for a single id: overwrite the entry with that id if it
exists, otherwise append it. -/
def upsertEntry (l : List Entry) (e : Entry) : List Entry :=
  if l.any (fun x => x.id == e.id) then l.map (fun x => if x.id == e.id then e else x)
  else l ++ [e]

/-- ChromaDB bulk `upsert`: upsert the entries in order. -/
def upsertMany (l : List Entry) (es : List Entry) : List Entry :=
  es.foldl upsertEntry l

/-- Embedding of `VectorStore.add_note`: derive the id from `path` (positional fallback
when the path is empty), skip the note when `clean_content` is empty, else
upsert into the collection selected by `is_journal`.  Returns the id on
success, `none` when the note was skipped. -/
def VectorStore.add_note (store : Store) (note : NoteData) : Option String × Store :=
  let pid := sanitizeId note.path
  let note_id := if pid = "" then "note_" ++ toString store.notes.length else pid
  if note.clean_content = "" then (none, store)
  else
    let metadata : NoteMeta :=
      { title := note.title, path := note.path, is_journal := note.is_journal
        tags := String.intercalate "," note.tags, journal_date := some note.journal_date
        last_modified := note.last_modified }
    let entry : Entry := { id := note_id, document := note.clean_content, metadata := metadata }
    if note.is_journal then (some note_id, { store with journals := upsertEntry store.journals entry })
    else (some note_id, { store with notes := upsertEntry store.notes entry })

/-- Loop body of the regular-note half of `add_notes_batch`: skip the note
when its `clean_content` is empty, else append the entry (the positional
fallback id counts the ids accumulated so far). -/
def regularStep (acc : List Entry) (note : NoteData) : List Entry :=
  let pid := sanitizeId note.path
  let note_id := if pid = "" then "note_" ++ toString acc.length else pid
  if note.clean_content = "" then acc
  else acc ++ [{ id := note_id, document := note.clean_content,
                 metadata := { title := note.title, path := note.path, is_journal := false
                               tags := String.intercalate "," note.tags, journal_date := none
                               last_modified := note.last_modified } }]

/-- Loop body of the journal half of `add_notes_batch`. -/
def journalStep (acc : List Entry) (note : NoteData) : List Entry :=
  let pid := sanitizeId note.path
  let note_id := if pid = "" then "journal_" ++ toString acc.length else pid
  if note.clean_content = "" then acc
  else acc ++ [{ id := note_id, document := note.clean_content,
                 metadata := { title := note.title, path := note.path, is_journal := true
                               tags := String.intercalate "," note.tags
                               journal_date := some note.journal_date
                               last_modified := note.last_modified } }]

/-- The list of entries the regular-note bulk write of `add_notes_batch`
sends to the `notes` collection. -/
def VectorStore.buildRegularBatch (notes : List NoteData) : List Entry :=
  notes.foldl regularStep []

/-- The list of entries the journal bulk write of `add_notes_batch` sends to
the `journals` collection. -/
def VectorStore.buildJournalBatch (notes : List NoteData) : List Entry :=
  notes.foldl journalStep []

/-- Embedding of `VectorStore.add_notes_batch`: partition by `is_journal`, build the two
entry lists (skipping empty-content notes), and perform one bulk upsert per
non-empty list. -/
def VectorStore.add_notes_batch (store : Store) (notes_data : List NoteData) : Store :=
  let regular_notes := notes_data.filter (fun n => !n.is_journal)
  let journal_notes := notes_data.filter (fun n => n.is_journal)
  let entriesR := VectorStore.buildRegularBatch regular_notes
  let store1 := if entriesR.isEmpty then store
                else { store with notes := upsertMany store.notes entriesR }
  let entriesJ := VectorStore.buildJournalBatch journal_notes
  if entriesJ.isEmpty then store1
  else { store1 with journals := upsertMany store1.journals entriesJ }

/-! ### Vector store: search (`VectorStore.search`) -/

/-- Metadata carried by a search result (the fields the retrieval layer
reads). -/
structure Meta where
  title : String := ""
  is_summary : Bool := false
  journal_date : String := ""
deriving DecidableEq, Repr

/-- One hit returned by a ChromaDB `collection.query` call. -/
structure Hit where
  id : String
  content : String
  meta : Meta
  dist : Int
deriving DecidableEq, Repr

/-- The answer of one `collection.query` call.  `hasDistances` models
whether the `distances` key is present in the returned dict; when it is,
every hit carries its distance, otherwise every result gets distance
`None`. -/
structure QueryRes where
  hits : List Hit
  hasDistances : Bool
deriving DecidableEq, Repr

/-- A search result dict.  `distance = none` models a dict without a
`distance` key (the synthetic summary); `distance = some none` a dict whose
`distance` key holds `None`; `distance = some (some z)` an actual distance.
Distances are modelled as integers: the claims are about their ordering
only. -/
structure Doc where
  id : String
  content : String
  meta : Meta
  distance : Option (Option Int)
deriving DecidableEq, Repr

/-- The per-collection result formatting loop of `VectorStore.search`. -/
def VectorStore.toDocs (q : QueryRes) : List Doc :=
  q.hits.map fun h =>
    { id := h.id, content := h.content, meta := h.meta
      distance := some (if q.hasDistances then some h.dist else none) }

/-- The collection-selection step of `VectorStore.search`: `"all"` selects
both collections, `"notes"` / `"journals"` one each, anything else none. -/
def VectorStore.selectedCollections (collection_name : String) (notesQ journalsQ : QueryRes) :
    List QueryRes :=
  (if collection_name = "all" ∨ collection_name = "notes" then [notesQ] else [])
    ++ (if collection_name = "all" ∨ collection_name = "journals" then [journalsQ] else [])

/-- Concatenation of the formatted results of the selected collections. -/
def VectorStore.mergedResults (notesQ journalsQ : QueryRes) (collection_name : String) :
    List Doc :=
  ((VectorStore.selectedCollections collection_name notesQ journalsQ).map VectorStore.toDocs).flatten

/-- Sort key used by the `results.sort` call (which keys on the distance entry of each result dict); the default
is never consulted on the branch where the sort runs, since there every
result has an actual distance. -/
def distKey (d : Doc) : Int := (d.distance.getD none).getD 0

/-- The comparison `results.sort` orders by. -/
def distLe (a b : Doc) : Prop := distKey a ≤ distKey b

instance : DecidableRel distLe := fun a b => inferInstanceAs (Decidable (distKey a ≤ distKey b))

instance : IsTotal Doc distLe := ⟨fun a b => le_total (distKey a) (distKey b)⟩

instance : IsTrans Doc distLe := ⟨fun _ _ _ h1 h2 => le_trans h1 h2⟩

/-- The `# Sort by distance (if available)` step: sort when the first result
has a distance.  When the first result has a distance but a later one is
`None`, the Python sort raises a `TypeError` comparing a float with `None`;
the surrounding handler then returns `[]`. -/
def VectorStore.sortStep (results : List Doc) : List Doc :=
  match results with
  | [] => []
  | r :: rest =>
    match r.distance.getD none with
    | none => r :: rest
    | some _ =>
      if (r :: rest).all (fun d => (d.distance.getD none).isSome) then
        List.insertionSort distLe (r :: rest)
      else []

/-- Embedding of `VectorStore.search`: query the selected collections, concatenate,
sort ascending by distance when available, truncate to `limit`. -/
def VectorStore.search (notesQ journalsQ : QueryRes) (collection_name : String) (limit : Nat) :
    List Doc :=
  (VectorStore.sortStep (VectorStore.mergedResults notesQ journalsQ collection_name)).take limit

/-! ### LLM client (`src/llm/ollama_client.py`) -/

/-- The JSON body `generate` / `process_note` posts to `/api/generate`. -/
structure GenPayload where
  model : String
  prompt : String
  stream : Bool
deriving DecidableEq, Repr

/-- A response dict from the LLM layer, holding the keys the callers test
for.  `empty` models a falsy value (`None` or an empty dict) coming back
from `response.json()`. -/
structure PNDict where
  empty : Bool := false
  response : Option String := none
  error : Option String := none
deriving DecidableEq, Repr

/-- The prompt-template selection of `process_note`: three recognized task
types, and a distinct generic fallback prompt for anything else. -/
def OllamaClient.process_note_prompt (note_content task_type : String) : String :=
  if task_type = "enhance" then
    "Please enhance this note by improving clarity and organization:\n\n" ++ note_content
  else if task_type = "summarize" then
    "Please summarize this note:\n\n" ++ note_content
  else if task_type = "tag" then
    "Extract key tags from this note as a comma-separated list:\n\n" ++ note_content
  else
    "Please enhance this note:\n\n" ++ note_content

/-- Embedding of `OllamaClient.process_note`: build the prompt, post a non-streaming
request pinned to `mistral:latest`, and normalize the outcome into a dict.
`httpRes` is the oracle for `requests.post` followed by `response.json()`:
the status code with the parsed body, or the exception raised.  Returns the
payload sent together with the resulting dict. -/
def OllamaClient.process_note (note_content task_type : String)
    (httpRes : CallRes (Nat × PNDict)) : GenPayload × PNDict :=
  let payload : GenPayload :=
    { model := "mistral:latest"
      prompt := OllamaClient.process_note_prompt note_content task_type
      stream := false }
  match httpRes with
  | .ok (code, json) =>
      if code = 200 then (payload, json)
      else (payload, { error := some ("Ollama API error: " ++ toString code) })
  | .exn msg => (payload, { error := some ("Error: " ++ msg) })

/-- A Python value yielded by a generator, as far as the membership test
membership test for the string "response" can distinguish them. -/
inductive PyVal where
  | str (s : String)
  | dict (fields : List (String × String))
deriving DecidableEq, Repr

/-- The function `OllamaClient.generate` contains a `yield` statement (in its streaming
branch), so in Python the whole function is a generator function: calling it
returns a generator object without running the body.  This definition gives
the sequence of values iterating that generator yields.  With
`stream = false` the body runs its non-streaming branch to a `return`
(performing the HTTP post as a side effect) and yields nothing; with
`stream = true` it yields one dict per streamed line that has a
`"response"` key.  `lines` is the oracle for the streamed response lines. -/
def OllamaClient.generateYield (stream : Bool) (lines : List (List (String × String))) :
    List PyVal :=
  if stream then
    (lines.filter (fun c => c.any (fun kv => kv.1 == "response"))).map PyVal.dict
  else []

/-- Python membership `v in gen` on a generator: iterate and compare each
yielded value with `v`. -/
def pyContains (yielded : List PyVal) (v : PyVal) : Bool :=
  yielded.any (fun y => y == v)

/-! ### Brain processor (`src/brain_processor.py`) -/

/-- The observable side effects of an orchestrator run. `exportWrite` is the
export file written by `parser.export_to_json`; `llmCall` an
`llm.process_note` call with the content sent; `storeAdd` a
`vector_store.add_note` call with the `clean_content` handed to the index;
`statsWrite` the run-stats snapshot file; `queryRead` a `vector_store.search`
call; `llmPost` the HTTP post performed when the generator returned by
`llm.generate` is iterated by the `in` test. -/
inductive Effect where
  | exportWrite
  | llmCall (content : String)
  | storeAdd (cleanContent : String)
  | statsWrite
  | queryRead (scope : String)
  | llmPost
deriving DecidableEq, Repr

/-- The mutable stats dict of `process_all_notes` (timestamps omitted). -/
structure Stats where
  pages_processed : Nat
  journals_processed : Nat
  enhanced_count : Nat
  errors : Nat
  status : String
  error : Option String
deriving DecidableEq, Repr

/-- The stats dict as created at the start of a run. -/
def initStats : Stats :=
  { pages_processed := 0, journals_processed := 0, enhanced_count := 0, errors := 0
    status := "in_progress", error := none }

/-- One page of the export, together with the oracle outcomes of the two
collaborator calls made for it: `llmRes` is what `llm.process_note` comes
back with when called (`ok (some r)` a dict with a `response` key, `ok none`
a dict without one, `exn` an exception), `addRes` the outcome of
`vector_store.add_note`. -/
structure PageIn where
  content : String := ""
  clean_content : String := ""
  llmRes : CallRes (Option String) := .ok none
  addRes : CallRes Unit := .ok ()
deriving DecidableEq, Repr

/-- One journal of the export with its `add_note` oracle outcome. -/
structure JournalIn where
  clean_content : String := ""
  addRes : CallRes Unit := .ok ()
deriving DecidableEq, Repr

/-- The per-page loop body of `process_all_notes` (the body of the inner
`try`).  The enhancement gate reads the raw `content` field of the page;
on an enhancement response the `clean_content` handed to the store is
replaced by it and `enhanced_count` is incremented before `add_note` runs,
so the increment survives an `add_note` exception.  An exception from either
call increments `errors`; otherwise `pages_processed` is incremented. -/
def processPage (acc : Stats × List Effect) (p : PageIn) : Stats × List Effect :=
  let stats := acc.1
  let effs := acc.2
  if p.content ≠ "" ∧ p.content.length < 4000 then
    match p.llmRes with
    | .exn _ => ({ stats with errors := stats.errors + 1 }, effs ++ [Effect.llmCall p.content])
    | .ok none =>
      match p.addRes with
      | .exn _ => ({ stats with errors := stats.errors + 1 },
                   effs ++ [Effect.llmCall p.content, Effect.storeAdd p.clean_content])
      | .ok _ => ({ stats with pages_processed := stats.pages_processed + 1 },
                  effs ++ [Effect.llmCall p.content, Effect.storeAdd p.clean_content])
    | .ok (some resp) =>
      match p.addRes with
      | .exn _ => ({ stats with enhanced_count := stats.enhanced_count + 1,
                                errors := stats.errors + 1 },
                   effs ++ [Effect.llmCall p.content, Effect.storeAdd resp])
      | .ok _ => ({ stats with enhanced_count := stats.enhanced_count + 1,
                               pages_processed := stats.pages_processed + 1 },
                  effs ++ [Effect.llmCall p.content, Effect.storeAdd resp])
  else
    match p.addRes with
    | .exn _ => ({ stats with errors := stats.errors + 1 },
                 effs ++ [Effect.storeAdd p.clean_content])
    | .ok _ => ({ stats with pages_processed := stats.pages_processed + 1 },
                effs ++ [Effect.storeAdd p.clean_content])

/-- The per-journal loop body of `process_all_notes`: index verbatim, no
enhancement. -/
def processJournal (acc : Stats × List Effect) (j : JournalIn) : Stats × List Effect :=
  match j.addRes with
  | .ok _ => ({ acc.1 with journals_processed := acc.1.journals_processed + 1 },
              acc.2 ++ [Effect.storeAdd j.clean_content])
  | .exn _ => ({ acc.1 with errors := acc.1.errors + 1 },
               acc.2 ++ [Effect.storeAdd j.clean_content])

/-- The pages loop of `process_all_notes`, started right after the export
file was written. -/
def pagesPhase (pages : List PageIn) : Stats × List Effect :=
  pages.foldl processPage (initStats, [Effect.exportWrite])

/-- The journals loop of `process_all_notes`. -/
def journalsPhase (journals : List JournalIn) (acc : Stats × List Effect) : Stats × List Effect :=
  journals.foldl processJournal acc

/-- The value `process_all_notes` returns: either the early error dict of
the readiness gate, or the stats dict. -/
inductive RunResult where
  | errorResult (error status : String)
  | stats (s : Stats)
deriving DecidableEq, Repr

/-- Embedding of `BrainProcessor.is_ready`: all three components initialized. -/
def BrainProcessor.is_ready (parserOk llmOk storeOk : Bool) : Bool :=
  parserOk && llmOk && storeOk

/-- Embedding of `BrainProcessor.process_all_notes`.  Here `exportRes` is the oracle for the
export/reload step (`parser.export_to_json` plus reading the file back):
the parsed pages and journals with their per-item call oracles, or the
exception raised; `saveRes` is the oracle for writing the stats snapshot.
An export failure short-circuits with `status = "failed"`; a snapshot-write
failure is caught by the same handler after the loops ran, overwriting
`status = "completed"` with `"failed"`. -/
def BrainProcessor.process_all_notes (parserOk llmOk storeOk : Bool)
    (exportRes : CallRes (List PageIn × List JournalIn)) (saveRes : CallRes Unit) :
    RunResult × List Effect :=
  if BrainProcessor.is_ready parserOk llmOk storeOk then
    match exportRes with
    | .exn e => (RunResult.stats { initStats with status := "failed", error := some e }, [])
    | .ok (pages, journals) =>
      let acc1 := pagesPhase pages
      let acc2 := journalsPhase journals acc1
      let s3 := { acc2.1 with status := "completed" }
      match saveRes with
      | .ok _ => (RunResult.stats s3, acc2.2 ++ [Effect.statsWrite])
      | .exn e => (RunResult.stats { s3 with status := "failed", error := some e }, acc2.2)
  else
    (RunResult.errorResult "BrainProcessor is not ready" "failed", [])

/-- An element of the list `search_brain` returns: a search-result dict or
an error dict. -/
inductive BrainItem where
  | errorItem (msg : String)
  | doc (d : Doc)
deriving DecidableEq, Repr

/-- Embedding of `BrainProcessor.search_brain`: readiness gate, vector search, then the
summarization attempt.  `llm.generate` is a generator function (its body
contains a `yield`), so `llm_response` is a generator object: it is truthy,
and the membership test of the string "response" against it iterates it — with
`stream = false` the body runs to its `return` (posting the HTTP request on
the way) and yields nothing, so the test is `False` and the summary is never
inserted.  Were the test ever `True`, the source would next evaluate
the subscript of the generator at "response"; subscripting a generator raises a `TypeError`,
which the handler turns into an error dict. -/
def BrainProcessor.search_brain (parserOk llmOk storeOk : Bool) (notesQ journalsQ : QueryRes)
    (genLines : List (List (String × String))) (query collection : String) (limit : Nat) :
    List BrainItem × List Effect :=
  if BrainProcessor.is_ready parserOk llmOk storeOk then
    let results := VectorStore.search notesQ journalsQ collection limit
    if results.isEmpty then (results.map BrainItem.doc, [Effect.queryRead collection])
    else
      let yielded := OllamaClient.generateYield false genLines
      if pyContains yielded (PyVal.str "response") then
        ([BrainItem.errorItem "generator object is not subscriptable"],
         [Effect.queryRead collection, Effect.llmPost])
      else
        (results.map BrainItem.doc, [Effect.queryRead collection, Effect.llmPost])
  else
    ([BrainItem.errorItem "BrainProcessor is not ready"], [])

/-- The character class Python `str.strip()` removes. -/
def isPyWS (c : Char) : Bool :=
  c = ' ' ∨ c = '\t' ∨ c = '\n' ∨ c = '\r' ∨ c = '\x0b' ∨ c = '\x0c'

/-- Python `str.strip()`: drop whitespace from both ends. -/
def pyStrip (s : String) : String :=
  String.mk (((s.toList.dropWhile isPyWS).reverse.dropWhile isPyWS).reverse)

/-- Embedding of `BrainProcessor.enhance_note`: LLM-initialized check first, then the
empty/whitespace-content check, then task-type validation with fallback to
`"enhance"`, then `llm.process_note`, whose dict is validated.  The second
component records whether an LLM request was issued. -/
def BrainProcessor.enhance_note (llmOk : Bool) (note_content task : String)
    (httpRes : CallRes (Nat × PNDict)) : PNDict × Bool :=
  if ¬ llmOk then
    ({ error := some "LLM is not initialized. Please make sure Ollama is running." }, false)
  else if note_content = "" ∨ pyStrip note_content = "" then
    ({ error := some "Note content cannot be empty" }, false)
  else
    let task1 := if task ∈ (["summarize", "tag", "enhance"] : List String) then task else "enhance"
    let result := (OllamaClient.process_note note_content task1 httpRes).2
    if result.empty then ({ error := some "Failed to get response from LLM." }, true)
    else if result.error.isSome then (result, true)
    else if result.response.isNone then
      ({ error := some "Invalid response structure from LLM." }, true)
    else (result, true)

/-- A page whose `clean_content` has exactly the enhancement-threshold
length of 4000 characters. -/
def longClean : String := String.mk (List.replicate 4000 'a')

/-! ### Theorems -/

/-- C5 — Readiness gate: whenever `is_ready` is false, `process_all_notes`
returns the error-shaped `{"error": ..., "status": "failed"}` value and
`search_brain` the single error dict, and both perform no side effects at
all — in particular zero writes to the vector store and zero writes to the
processed-data artifact location. -/
theorem readiness_gate_blocks_everything (parserOk llmOk storeOk : Bool)
    (h : BrainProcessor.is_ready parserOk llmOk storeOk = false)
    (exportRes : CallRes (List PageIn × List JournalIn)) (saveRes : CallRes Unit)
    (notesQ journalsQ : QueryRes) (genLines : List (List (String × String)))
    (query collection : String) (limit : Nat) :
    BrainProcessor.process_all_notes parserOk llmOk storeOk exportRes saveRes
        = (RunResult.errorResult "BrainProcessor is not ready" "failed", [])
      ∧ BrainProcessor.search_brain parserOk llmOk storeOk notesQ journalsQ genLines
          query collection limit
        = ([BrainItem.errorItem "BrainProcessor is not ready"], []) := by
  constructor
  · simp [BrainProcessor.process_all_notes, h]
  · simp [BrainProcessor.search_brain, h]

/-- Witness for C5 at a concrete not-ready state (the parser failed to
initialize). -/
theorem readiness_gate_blocks_everything_witness :
    BrainProcessor.is_ready false true true = false
    ∧ BrainProcessor.process_all_notes false true true (.ok ([], [])) (.ok ())
        = (RunResult.errorResult "BrainProcessor is not ready" "failed", [])
    ∧ BrainProcessor.search_brain false true true ⟨[], true⟩ ⟨[], true⟩ [] "q" "all" 5
        = ([BrainItem.errorItem "BrainProcessor is not ready"], []) := by
  have h := readiness_gate_blocks_everything false true true (by decide)
    (.ok ([], [])) (.ok ()) ⟨[], true⟩ ⟨[], true⟩ [] "q" "all" 5
  exact ⟨by decide, h.1, h.2⟩

/-- C8 — A `search` with a `collection_name` outside
`{"all", "notes", "journals"}` selects no collection and returns the empty
list rather than failing. -/
theorem search_unknown_scope_empty (notesQ journalsQ : QueryRes) (name : String) (limit : Nat)
    (h1 : name ≠ "all") (h2 : name ≠ "notes") (h3 : name ≠ "journals") :
    VectorStore.selectedCollections name notesQ journalsQ = []
    ∧ VectorStore.search notesQ journalsQ name limit = [] := by
  have hs : VectorStore.selectedCollections name notesQ journalsQ = [] := by
    simp [VectorStore.selectedCollections, h1, h2, h3]
  refine ⟨hs, ?_⟩
  simp [VectorStore.search, VectorStore.mergedResults, hs, VectorStore.sortStep]

/-- Witness for C8 at the concrete scope `"everything"`. -/
theorem search_unknown_scope_empty_witness :
    ("everything" : String) ≠ "all"
    ∧ VectorStore.search ⟨[⟨"a", "c", {}, 1⟩], true⟩ ⟨[], true⟩ "everything" 5 = [] := by
  refine ⟨by decide, ?_⟩
  exact (search_unknown_scope_empty ⟨[⟨"a", "c", {}, 1⟩], true⟩ ⟨[], true⟩ "everything" 5
    (by decide) (by decide) (by decide)).2

/-- C9 — Whenever the processor is ready, `process_all_notes` returns a
stats record (which carries the `pages_processed`, `journals_processed`,
`enhanced_count` and `errors` counters by construction) whose `status` is
`"completed"` or `"failed"`, never `"in_progress"`. -/
theorem process_all_notes_status (parserOk llmOk storeOk : Bool)
    (h : BrainProcessor.is_ready parserOk llmOk storeOk = true)
    (exportRes : CallRes (List PageIn × List JournalIn)) (saveRes : CallRes Unit) :
    ∃ st : Stats,
      (BrainProcessor.process_all_notes parserOk llmOk storeOk exportRes saveRes).1
          = RunResult.stats st
        ∧ (st.status = "completed" ∨ st.status = "failed") := by
  unfold BrainProcessor.process_all_notes
  rw [h]
  cases exportRes with
  | exn e => exact ⟨_, rfl, Or.inr rfl⟩
  | ok pj =>
    cases pj with
    | mk pages journals =>
      cases saveRes with
      | ok _ => exact ⟨_, rfl, Or.inl rfl⟩
      | exn e => exact ⟨_, rfl, Or.inr rfl⟩

/-- Witness for C9 on a ready processor with an empty export. -/
theorem process_all_notes_status_witness :
    ∃ st : Stats,
      (BrainProcessor.process_all_notes true true true (.ok ([], [])) (.ok ())).1
          = RunResult.stats st
        ∧ (st.status = "completed" ∨ st.status = "failed") :=
  process_all_notes_status true true true (by decide) (.ok ([], [])) (.ok ())

/-- C1 — `search_brain` never prepends a summary: because `generate` is a
generator function, the membership test guarding the insertion is always
false, and the returned list is always exactly the raw vector-search result,
whether the underlying HTTP generation succeeds or fails.  This contradicts
the success half of the claim (result[0].id == "summary"), which matches the
documented intent of the code. -/
theorem search_brain_never_prepends_summary (notesQ journalsQ : QueryRes)
    (genLines : List (List (String × String))) (query collection : String) (limit : Nat) :
    (BrainProcessor.search_brain true true true notesQ journalsQ genLines
        query collection limit).1
      = (VectorStore.search notesQ journalsQ collection limit).map BrainItem.doc := by
  unfold BrainProcessor.search_brain
  simp [BrainProcessor.is_ready, OllamaClient.generateYield, pyContains]
  split <;> rfl

/-- C7 counterexample — an unrecognized task type does not behave
identically to `"enhance"`: the fallback prompt is a different string from
the enhance template, so a different request is sent. -/
theorem process_note_fallback_differs_from_enhance :
    (OllamaClient.process_note "x" "bogus" (.ok (200, { response := some "ok" }))).1
      ≠ (OllamaClient.process_note "x" "enhance" (.ok (200, { response := some "ok" }))).1 := by
  decide

/-- C7 amended — for every task type outside {enhance, summarize, tag},
`process_note` sends the generic fallback prompt
`"Please enhance this note:\n\n" ++ content` (a template distinct from the
`"enhance"` one), as a non-streaming request pinned to the fixed model
`"mistral:latest"`, with the same response handling as any other task. -/
theorem process_note_fallback (c task : String) (httpRes : CallRes (Nat × PNDict))
    (h : task ∉ (["enhance", "summarize", "tag"] : List String)) :
    OllamaClient.process_note c task httpRes
      = ({ model := "mistral:latest", prompt := "Please enhance this note:\n\n" ++ c
           stream := false },
         (OllamaClient.process_note c "enhance" httpRes).2) := by
  simp only [List.mem_cons, List.not_mem_nil, or_false, not_or] at h
  obtain ⟨h1, h2, h3⟩ := h
  cases httpRes with
  | ok p =>
    obtain ⟨code, json⟩ := p
    by_cases hc : code = 200 <;>
      simp [OllamaClient.process_note, OllamaClient.process_note_prompt, h1, h2, h3, hc]
  | exn m =>
    simp [OllamaClient.process_note, OllamaClient.process_note_prompt, h1, h2, h3]

/-- Witness for C7 amended at the concrete task type `"bogus"`. -/
theorem process_note_fallback_witness :
    ("bogus" : String) ∉ (["enhance", "summarize", "tag"] : List String)
    ∧ OllamaClient.process_note "hello" "bogus" (.ok (200, { response := some "ok" }))
        = ({ model := "mistral:latest", prompt := "Please enhance this note:\n\nhello"
             stream := false },
           (OllamaClient.process_note "hello" "enhance"
              (.ok (200, { response := some "ok" }))).2) :=
  ⟨by decide, process_note_fallback "hello" "bogus" (.ok (200, { response := some "ok" }))
     (by decide)⟩

/-- A string all of whose characters are stripped by Python `strip()` strips
to the empty string. -/
theorem pyStrip_of_all_ws {s : String} (h : s.toList.all isPyWS = true) : pyStrip s = "" := by
  unfold pyStrip
  have h1 : s.toList.dropWhile isPyWS = [] :=
    List.dropWhile_eq_nil_iff.mpr (by simpa [List.all_eq_true] using h)
  rw [h1]
  rfl

/-- C10 counterexample — the claim quantifies over every empty or
whitespace-only input, but when the LLM client is not initialized the
earlier guard fires first and `enhance_note` returns the
LLM-not-initialized error instead of the empty-content error (still without
issuing a request). -/
theorem enhance_note_empty_counterexample :
    (BrainProcessor.enhance_note false "" "enhance" (.ok (200, { response := some "ok" }))).1
        = { error := some "LLM is not initialized. Please make sure Ollama is running." }
      ∧ (BrainProcessor.enhance_note false "" "enhance" (.ok (200, { response := some "ok" }))).1
        ≠ { error := some "Note content cannot be empty" }
      ∧ (BrainProcessor.enhance_note false "" "enhance" (.ok (200, { response := some "ok" }))).2
        = false := by
  decide

/-- C10 amended — provided the LLM client is initialized, `enhance_note` on
an empty or whitespace-only content returns exactly
`{"error": "Note content cannot be empty"}` and issues no request to the
LLM client. -/
theorem enhance_note_empty_content (content task : String) (httpRes : CallRes (Nat × PNDict))
    (h : content.toList.all isPyWS = true) :
    BrainProcessor.enhance_note true content task httpRes
      = ({ error := some "Note content cannot be empty" }, false) := by
  unfold BrainProcessor.enhance_note
  rw [if_neg (by simp), if_pos (Or.inr (pyStrip_of_all_ws h))]

/-- Witness for C10 amended at the concrete whitespace-only content
`" \t\n"`. -/
theorem enhance_note_empty_content_witness :
    (" \t\n" : String).toList.all isPyWS = true
    ∧ BrainProcessor.enhance_note true " \t\n" "summarize" (.ok (200, { response := some "ok" }))
        = ({ error := some "Note content cannot be empty" }, false) :=
  ⟨by decide,
   enhance_note_empty_content " \t\n" "summarize" (.ok (200, { response := some "ok" }))
     (by decide)⟩

/-- The length of `longClean` is exactly the threshold, computed without
unfolding the 4000-element list. -/
theorem longClean_length : longClean.length = 4000 := by
  show (List.replicate 4000 'a').length = 4000
  exact List.length_replicate 4000 'a'

/-- C3 counterexample — the enhancement gate of `process_all_notes` reads
the raw `content` field, not `clean_content`: a page whose `clean_content`
has length 4000 (≥ the threshold) but whose raw `content` is the short
string `"x"` still triggers an enhancement request and increments
`enhanced_count`, contradicting the claim. -/
theorem enhancement_gate_counterexample :
    4000 ≤ longClean.length
      ∧ (processPage (initStats, [])
           { content := "x", clean_content := longClean
             llmRes := .ok (some "resp"), addRes := .ok () }).1.enhanced_count = 1
      ∧ Effect.llmCall "x" ∈ (processPage (initStats, [])
           { content := "x", clean_content := longClean
             llmRes := .ok (some "resp"), addRes := .ok () }).2 := by
  refine ⟨le_of_eq longClean_length.symm, by decide, by decide⟩

/-- C3 amended — the threshold gate is on the raw `content` field: for every
page whose `content` is empty or of length ≥ 4000, the page loop makes no
enhancement request, leaves `enhanced_count` unchanged, and hands the
original `clean_content` of the page to the index; and an enhancement request is
made exactly for pages whose `content` is non-empty and shorter than 4000
characters. -/
theorem enhancement_gate (p : PageIn) (st : Stats) (effs : List Effect) :
    (¬ (p.content ≠ "" ∧ p.content.length < 4000) →
        (processPage (st, effs) p).1.enhanced_count = st.enhanced_count
          ∧ (processPage (st, effs) p).2 = effs ++ [Effect.storeAdd p.clean_content])
      ∧ ((p.content ≠ "" ∧ p.content.length < 4000) →
        Effect.llmCall p.content ∈ (processPage (st, effs) p).2) := by
  constructor
  · intro hgate
    unfold processPage
    rw [if_neg hgate]
    cases p.addRes <;> exact ⟨rfl, rfl⟩
  · intro hgate
    unfold processPage
    rw [if_pos hgate]
    cases hl : p.llmRes with
    | exn m => simp
    | ok r => cases r <;> cases p.addRes <;> simp

/-- Witness for C3 amended on a concrete page with 4000-character raw
content (gate closed) and a concrete short page (gate open). -/
theorem enhancement_gate_witness :
    (¬ ((longClean : String) ≠ "" ∧ longClean.length < 4000))
    ∧ (processPage (initStats, [])
         { content := longClean, clean_content := "orig"
           llmRes := .ok (some "resp"), addRes := .ok () }).1.enhanced_count
        = initStats.enhanced_count
    ∧ (processPage (initStats, [])
         { content := longClean, clean_content := "orig"
           llmRes := .ok (some "resp"), addRes := .ok () }).2
        = [] ++ [Effect.storeAdd "orig"]
    ∧ Effect.llmCall "hi" ∈ (processPage (initStats, [])
         { content := "hi", clean_content := "hi"
           llmRes := .ok (some "resp"), addRes := .ok () }).2 := by
  have hlong : ¬ ((longClean : String) ≠ "" ∧ longClean.length < 4000) := by
    rintro ⟨-, hlt⟩
    rw [longClean_length] at hlt
    exact absurd hlt (by decide)
  have h1 := (enhancement_gate
    { content := longClean, clean_content := "orig"
      llmRes := .ok (some "resp"), addRes := .ok () } initStats []).1 hlong
  have h2 := (enhancement_gate
    { content := "hi", clean_content := "hi"
      llmRes := .ok (some "resp"), addRes := .ok () } initStats []).2 (by decide)
  exact ⟨hlong, h1.1, h1.2, h2⟩

/-- Each iteration of the page loop adds exactly one to
`pages_processed + errors`, never touches `journals_processed`, and never
decreases `errors`. -/
theorem processPage_counts (acc : Stats × List Effect) (pg : PageIn) :
    (processPage acc pg).1.pages_processed + (processPage acc pg).1.errors
        = acc.1.pages_processed + acc.1.errors + 1
      ∧ (processPage acc pg).1.journals_processed = acc.1.journals_processed
      ∧ acc.1.errors ≤ (processPage acc pg).1.errors := by
  obtain ⟨st, effs⟩ := acc
  obtain ⟨c, cc, lr, ar⟩ := pg
  unfold processPage
  rcases lr with r | m
  · rcases r with _ | resp <;> rcases ar with u | m2 <;>
      (split <;> refine ⟨by simp +arith, by simp, by simp⟩)
  · rcases ar with u | m2 <;>
      (split <;> refine ⟨by simp +arith, by simp, by simp⟩)

/-- Each iteration of the journal loop adds exactly one to
`journals_processed + errors`, never touches `pages_processed`, and never
decreases `errors`. -/
theorem processJournal_counts (acc : Stats × List Effect) (j : JournalIn) :
    (processJournal acc j).1.journals_processed + (processJournal acc j).1.errors
        = acc.1.journals_processed + acc.1.errors + 1
      ∧ (processJournal acc j).1.pages_processed = acc.1.pages_processed
      ∧ acc.1.errors ≤ (processJournal acc j).1.errors := by
  obtain ⟨cc, ar⟩ := j
  unfold processJournal
  rcases ar with u | m <;> refine ⟨by simp +arith, by simp, by simp⟩

/-- Loop invariant of the pages fold. -/
theorem pagesFold_inv (pages : List PageIn) : ∀ acc : Stats × List Effect,
    ((pages.foldl processPage acc).1.pages_processed
          + (pages.foldl processPage acc).1.errors
        = acc.1.pages_processed + acc.1.errors + pages.length)
      ∧ (pages.foldl processPage acc).1.journals_processed = acc.1.journals_processed
      ∧ acc.1.errors ≤ (pages.foldl processPage acc).1.errors := by
  induction pages with
  | nil => intro acc; simp
  | cons pg rest ih =>
    intro acc
    simp only [List.foldl_cons, List.length_cons]
    obtain ⟨h1, h2, h3⟩ := processPage_counts acc pg
    obtain ⟨g1, g2, g3⟩ := ih (processPage acc pg)
    exact ⟨by omega, g2.trans h2, le_trans h3 g3⟩

/-- Loop invariant of the journals fold. -/
theorem journalsFold_inv (journals : List JournalIn) : ∀ acc : Stats × List Effect,
    ((journals.foldl processJournal acc).1.journals_processed
          + (journals.foldl processJournal acc).1.errors
        = acc.1.journals_processed + acc.1.errors + journals.length)
      ∧ (journals.foldl processJournal acc).1.pages_processed = acc.1.pages_processed
      ∧ acc.1.errors ≤ (journals.foldl processJournal acc).1.errors := by
  induction journals with
  | nil => intro acc; simp
  | cons j rest ih =>
    intro acc
    simp only [List.foldl_cons, List.length_cons]
    obtain ⟨h1, h2, h3⟩ := processJournal_counts acc j
    obtain ⟨g1, g2, g3⟩ := ih (processJournal acc j)
    exact ⟨by omega, g2.trans h2, le_trans h3 g3⟩

/-- C2 — Stats conservation: on a ready processor whose export step
succeeded with P pages and J journals, the returned stats satisfy
`pages_processed + journals_processed + errors = P + J`, with the
pages-phase part bounded by P and the journals-phase part bounded by J
(each item increments exactly one of its processed counter or the error
counter).  `(pagesPhase pages).1.errors` is the number of errors
accumulated during the pages loop. -/
theorem stats_conservation (parserOk llmOk storeOk : Bool)
    (h : BrainProcessor.is_ready parserOk llmOk storeOk = true)
    (pages : List PageIn) (journals : List JournalIn) (saveRes : CallRes Unit) :
    ∀ st : Stats,
      (BrainProcessor.process_all_notes parserOk llmOk storeOk
          (.ok (pages, journals)) saveRes).1 = RunResult.stats st →
        st.pages_processed + st.journals_processed + st.errors
            = pages.length + journals.length
          ∧ st.pages_processed + (pagesPhase pages).1.errors ≤ pages.length
          ∧ st.journals_processed + (st.errors - (pagesPhase pages).1.errors)
              ≤ journals.length := by
  intro st hst
  obtain ⟨p1, p2, p3⟩ := pagesFold_inv pages (initStats, [Effect.exportWrite])
  obtain ⟨j1, j2, j3⟩ := journalsFold_inv journals (pagesPhase pages)
  have hpp : pagesPhase pages = pages.foldl processPage (initStats, [Effect.exportWrite]) := rfl
  have hjj : journalsPhase journals (pagesPhase pages)
      = journals.foldl processJournal (pagesPhase pages) := rfl
  rw [← hpp] at p1 p2 p3
  rw [← hjj] at j1 j2 j3
  unfold BrainProcessor.process_all_notes at hst
  rw [h] at hst
  simp only [initStats] at p1 p2 p3
  cases saveRes with
  | ok u =>
    simp only at hst
    have hst2 : st = { (journalsPhase journals (pagesPhase pages)).1 with status := "completed" } :=
      (RunResult.stats.injEq _ _).mp hst.symm
    have e1 : st.pages_processed = (journalsPhase journals (pagesPhase pages)).1.pages_processed := by
      rw [hst2]
    have e2 : st.journals_processed
        = (journalsPhase journals (pagesPhase pages)).1.journals_processed := by
      rw [hst2]
    have e3 : st.errors = (journalsPhase journals (pagesPhase pages)).1.errors := by
      rw [hst2]
    refine ⟨by omega, by omega, by omega⟩
  | exn e =>
    simp only at hst
    have hst2 : st = { (journalsPhase journals (pagesPhase pages)).1 with
        status := "failed", error := some e } :=
      (RunResult.stats.injEq _ _).mp hst.symm
    have e1 : st.pages_processed = (journalsPhase journals (pagesPhase pages)).1.pages_processed := by
      rw [hst2]
    have e2 : st.journals_processed
        = (journalsPhase journals (pagesPhase pages)).1.journals_processed := by
      rw [hst2]
    have e3 : st.errors = (journalsPhase journals (pagesPhase pages)).1.errors := by
      rw [hst2]
    refine ⟨by omega, by omega, by omega⟩

/-- Witness for C2 on a concrete ready run: one page (enhanced and indexed)
and one journal whose indexing raises. -/
theorem stats_conservation_witness :
    BrainProcessor.is_ready true true true = true
    ∧ (BrainProcessor.process_all_notes true true true
          (.ok ([{ content := "hi", clean_content := "hi"
                   llmRes := .ok (some "resp"), addRes := .ok () }],
                [{ clean_content := "j", addRes := .exn "boom" }])) (.ok ())).1
        = RunResult.stats { pages_processed := 1, journals_processed := 0, enhanced_count := 1
                            errors := 1, status := "completed", error := none }
    ∧ (1 + 0 + 1 = 1 + 1
        ∧ 1 + (pagesPhase [{ content := "hi", clean_content := "hi"
                             llmRes := .ok (some "resp"), addRes := .ok () }]).1.errors ≤ 1
        ∧ 0 + (1 - (pagesPhase [{ content := "hi", clean_content := "hi"
                                  llmRes := .ok (some "resp"), addRes := .ok () }]).1.errors)
            ≤ 1) := by
  refine ⟨rfl, by decide, ?_⟩
  have h := stats_conservation true true true rfl
    [{ content := "hi", clean_content := "hi", llmRes := .ok (some "resp"), addRes := .ok () }]
    [{ clean_content := "j", addRes := .exn "boom" }] (.ok ())
    { pages_processed := 1, journals_processed := 0, enhanced_count := 1
      errors := 1, status := "completed", error := none } (by decide)
  simpa using h

/-- When both collections report distances, every merged result carries an
actual distance value. -/
theorem mem_mergedResults_dist {notesQ journalsQ : QueryRes} {name : String} {d : Doc}
    (hn : notesQ.hasDistances = true) (hj : journalsQ.hasDistances = true)
    (hd : d ∈ VectorStore.mergedResults notesQ journalsQ name) :
    ∃ z : Int, d.distance = some (some z) := by
  unfold VectorStore.mergedResults at hd
  rw [List.mem_flatten] at hd
  obtain ⟨l, hl, hdl⟩ := hd
  rw [List.mem_map] at hl
  obtain ⟨q, hq, rfl⟩ := hl
  have hq2 : q = notesQ ∨ q = journalsQ := by
    unfold VectorStore.selectedCollections at hq
    rcases List.mem_append.mp hq with h | h <;> split at h <;> simp at h <;> simp [h]
  unfold VectorStore.toDocs at hdl
  rw [List.mem_map] at hdl
  obtain ⟨hit, hhit, rfl⟩ := hdl
  rcases hq2 with rfl | rfl
  · exact ⟨hit.dist, by simp [hn]⟩
  · exact ⟨hit.dist, by simp [hj]⟩

/-- When every result carries a distance, the sort branch of `search` runs
and returns the stable sort of the whole merged list. -/
theorem sortStep_of_all_dist {l : List Doc}
    (h : ∀ d ∈ l, ∃ z : Int, d.distance = some (some z)) :
    VectorStore.sortStep l = List.insertionSort distLe l := by
  cases l with
  | nil => rfl
  | cons r rest =>
    obtain ⟨z, hz⟩ := h r (List.mem_cons_self r rest)
    have hall : (r :: rest).all (fun d => (d.distance.getD none).isSome) = true := by
      rw [List.all_eq_true]
      intro d hd
      obtain ⟨zd, hzd⟩ := h d hd
      simp [hzd]
    unfold VectorStore.sortStep
    dsimp only
    rw [hz]
    simp [hall]

/-- C4 — Distance ordering: when the selected collections report distances,
the `search` result is sorted ascending by distance
(`result[i].distance ≤ result[i+1].distance` for all valid `i`), has length
at most `limit`, and is drawn from the concatenation of the per-collection
results — the truncation to `limit` is applied after merging across
collections. -/
theorem search_distance_ordering (notesQ journalsQ : QueryRes) (name : String) (limit : Nat)
    (hn : notesQ.hasDistances = true) (hj : journalsQ.hasDistances = true) :
    List.Pairwise distLe (VectorStore.search notesQ journalsQ name limit)
      ∧ (VectorStore.search notesQ journalsQ name limit).length ≤ limit
      ∧ (VectorStore.search notesQ journalsQ name limit).Subperm
          (VectorStore.mergedResults notesQ journalsQ name) := by
  have hall : ∀ d ∈ VectorStore.mergedResults notesQ journalsQ name,
      ∃ z : Int, d.distance = some (some z) :=
    fun d hd => mem_mergedResults_dist hn hj hd
  unfold VectorStore.search
  rw [sortStep_of_all_dist hall]
  refine ⟨?_, ?_, ?_⟩
  · exact List.Pairwise.sublist (List.take_sublist _ _) (List.sorted_insertionSort distLe _)
  · exact List.length_take_le _ _
  · exact ((List.take_sublist _ _).subperm).trans (List.perm_insertionSort distLe _).subperm

/-- Witness for C4 on a concrete two-collection search whose raw results
arrive out of order. -/
theorem search_distance_ordering_witness :
    (⟨[⟨"n1", "cn", {}, 7⟩], true⟩ : QueryRes).hasDistances = true
    ∧ (⟨[⟨"j1", "cj", {}, 2⟩], true⟩ : QueryRes).hasDistances = true
    ∧ (List.Pairwise distLe
         (VectorStore.search ⟨[⟨"n1", "cn", {}, 7⟩], true⟩ ⟨[⟨"j1", "cj", {}, 2⟩], true⟩ "all" 5)
       ∧ (VectorStore.search ⟨[⟨"n1", "cn", {}, 7⟩], true⟩ ⟨[⟨"j1", "cj", {}, 2⟩], true⟩
            "all" 5).length ≤ 5
       ∧ (VectorStore.search ⟨[⟨"n1", "cn", {}, 7⟩], true⟩ ⟨[⟨"j1", "cj", {}, 2⟩], true⟩
            "all" 5).Subperm
           (VectorStore.mergedResults ⟨[⟨"n1", "cn", {}, 7⟩], true⟩
              ⟨[⟨"j1", "cj", {}, 2⟩], true⟩ "all")) :=
  ⟨rfl, rfl,
   search_distance_ordering ⟨[⟨"n1", "cn", {}, 7⟩], true⟩ ⟨[⟨"j1", "cj", {}, 2⟩], true⟩
     "all" 5 rfl rfl⟩

/-- The documents of the regular-note batch are exactly the non-empty clean
contents, in order. -/
theorem regularBatch_documents (ns : List NoteData) : ∀ acc : List Entry,
    (ns.foldl regularStep acc).map (fun e => e.document)
      = acc.map (fun e => e.document)
        ++ (ns.filter (fun m => !(m.clean_content == ""))).map (fun m => m.clean_content) := by
  induction ns with
  | nil => intro acc; simp
  | cons n rest ih =>
    intro acc
    simp only [List.foldl_cons, List.filter_cons]
    by_cases hc : n.clean_content = ""
    · simp only [regularStep, hc, if_true, beq_self_eq_true, Bool.not_true, if_false]
      rw [ih acc]
      simp [hc]
    · have hb : (n.clean_content == "") = false := beq_eq_false_iff_ne.mpr hc
      simp only [regularStep, if_neg hc, hb, Bool.not_false, if_true]
      rw [ih]
      simp

/-- The documents of the journal batch are exactly the non-empty clean
contents, in order. -/
theorem journalBatch_documents (ns : List NoteData) : ∀ acc : List Entry,
    (ns.foldl journalStep acc).map (fun e => e.document)
      = acc.map (fun e => e.document)
        ++ (ns.filter (fun m => !(m.clean_content == ""))).map (fun m => m.clean_content) := by
  induction ns with
  | nil => intro acc; simp
  | cons n rest ih =>
    intro acc
    simp only [List.foldl_cons, List.filter_cons]
    by_cases hc : n.clean_content = ""
    · simp only [journalStep, hc, if_true, beq_self_eq_true, Bool.not_true, if_false]
      rw [ih acc]
      simp [hc]
    · have hb : (n.clean_content == "") = false := beq_eq_false_iff_ne.mpr hc
      simp only [journalStep, if_neg hc, hb, Bool.not_false, if_true]
      rw [ih]
      simp

/-- C6 — Empty-content notes are skipped, not stored: `add_note` on a note
with empty `clean_content` returns no id and leaves the store unchanged,
and the bulk writes of `add_notes_batch` contain exactly the non-empty
notes of the batch (in order), so an empty-content note is excluded while
every other note is written. -/
theorem empty_content_skipped (store : Store) (n : NoteData) (h : n.clean_content = "")
    (ns : List NoteData) :
    VectorStore.add_note store n = (none, store)
      ∧ (VectorStore.buildRegularBatch ns).map (fun e => e.document)
          = (ns.filter (fun m => !(m.clean_content == ""))).map (fun m => m.clean_content)
      ∧ (VectorStore.buildJournalBatch ns).map (fun e => e.document)
          = (ns.filter (fun m => !(m.clean_content == ""))).map (fun m => m.clean_content) := by
  refine ⟨?_, ?_, ?_⟩
  · unfold VectorStore.add_note
    rw [if_pos h]
  · simpa using regularBatch_documents ns []
  · simpa using journalBatch_documents ns []

/-- Witness for C6: a concrete two-note batch where the empty-content note
is dropped from the bulk write and the non-empty one is kept. -/
theorem empty_content_skipped_witness :
    ({ path := "a/b", clean_content := "" } : NoteData).clean_content = ""
    ∧ VectorStore.add_note ⟨[], []⟩ { path := "a/b", clean_content := "" } = (none, ⟨[], []⟩)
    ∧ (VectorStore.buildRegularBatch
         [{ path := "p", clean_content := "keep" }, { path := "a/b", clean_content := "" }]).map
        (fun e => e.document)
      = ([{ path := "p", clean_content := "keep" },
          { path := "a/b", clean_content := "" }].filter
           (fun m : NoteData => !(m.clean_content == ""))).map (fun m => m.clean_content) := by
  have h := empty_content_skipped ⟨[], []⟩ { path := "a/b", clean_content := "" } rfl
    [{ path := "p", clean_content := "keep" }, { path := "a/b", clean_content := "" }]
  exact ⟨rfl, h.1, h.2.1⟩
